import Mathlib

/-!
Verification of the line-classification pipeline of `src/Scrape.py`
(`scrape_webpage`, `extract_data`, `preprocess_data`, `main`).

The Python code is shallowly embedded:
* strings are Lean `String`s, manipulated as their `List Char` of Unicode
  scalar values;
* `str.strip()` uses the Python whitespace set (`pyIsSpace`);
* the regex class `\d` of `re.match` (Unicode-aware in Python 3) is modelled
  by `pyIsDigit`, membership in the Unicode decimal-digit (Nd) ranges; the
  ranges are listed explicitly (BMP and the common supplementary-plane runs;
  every character appearing in a theorem below lies in the ASCII or
  Arabic-Indic run, which are stable across Unicode versions);
* the fallible builtins `int(...)` and `float(...)` are modelled by
  `Option`-valued parsers (`pyIntParse?`, `pyFloatParse?`), restricted to the
  digit-string shapes that are reachable at their call sites (the guards
  `re.match` establishes);
* statements that can raise are `Except String`-valued;
* the network and the HTML-to-text reduction are abstracted into a
  `FetchEvent`: the outcome of the single `requests.get` call, carrying the
  final HTTP status and the visible text `BeautifulSoup.get_text` extracts
  on the success path, or the raised exception.
-/

namespace Scrape

/-- The character set stripped by Python `str.strip()` with no arguments:
characters for which `str.isspace()` holds (ASCII whitespace, the C1 control
separators, and the Unicode space separators). -/
def pyIsSpace (c : Char) : Bool :=
  let n := c.toNat
  (9 ≤ n && n ≤ 13) || (28 ≤ n && n ≤ 31) || n == 32 || n == 133 || n == 160 ||
  n == 0x1680 || (0x2000 ≤ n && n ≤ 0x200A) || n == 0x2028 || n == 0x2029 ||
  n == 0x202F || n == 0x205F || n == 0x3000

/-- Start codepoints of the 10-character Unicode decimal-digit (Nd) runs; the
set matched by Python 3 regex `\d` on `str` patterns and accepted by
`int(...)`/`float(...)` as digits. -/
def pyDigitStarts : List Nat :=
  [0x30, 0x660, 0x6F0, 0x7C0, 0x966, 0x9E6, 0xA66, 0xAE6, 0xB66, 0xBE6,
   0xC66, 0xCE6, 0xD66, 0xDE6, 0xE50, 0xED0, 0xF20, 0x1040, 0x1090, 0x17E0,
   0x1810, 0x1946, 0x19D0, 0x1A80, 0x1A90, 0x1B50, 0x1BB0, 0x1C40, 0x1C50,
   0xA620, 0xA8D0, 0xA900, 0xA9D0, 0xA9F0, 0xAA50, 0xABF0, 0xFF10,
   0x104A0, 0x10D30, 0x11066, 0x110F0, 0x11136, 0x111D0, 0x112F0, 0x11450,
   0x114D0, 0x11650, 0x116C0, 0x11730, 0x118E0, 0x11950, 0x11C50, 0x11D50,
   0x11DA0, 0x16A60, 0x16AC0, 0x16B50, 0x1D7CE, 0x1D7D8, 0x1D7E2, 0x1D7EC,
   0x1D7F6, 0x1E140, 0x1E2F0, 0x1E950, 0x1FBF0]

/-- Decimal value of a Unicode digit character, `none` when the character is
not a decimal digit. -/
def pyDigitVal? (c : Char) : Option Nat :=
  pyDigitStarts.findSome? fun s =>
    if s ≤ c.toNat && c.toNat ≤ s + 9 then some (c.toNat - s) else none

/-- Python 3 regex `\d` on a single character. -/
def pyIsDigit (c : Char) : Bool := (pyDigitVal? c).isSome

/-- Python str.strip with no arguments: drop leading and trailing whitespace. -/
def stripList (l : List Char) : List Char :=
  ((l.dropWhile pyIsSpace).reverse.dropWhile pyIsSpace).reverse

def splitCharAux (sep : Char) : List Char → List Char → List (List Char)
  | [], acc => [acc.reverse]
  | c :: rest, acc =>
    if c = sep then acc.reverse :: splitCharAux sep rest []
    else splitCharAux sep rest (c :: acc)

/-- Python `str.split(sep)` for a one-character separator: splits at every
occurrence, keeping empty pieces (`"".split(c) == [""]`). -/
def splitChar (sep : Char) (l : List Char) : List (List Char) :=
  splitCharAux sep l []

/-- Numeric value of a digit string (most significant first), digit values
taken through `pyDigitVal?`. -/
def digitsVal (l : List Char) : Nat :=
  l.foldl (fun a c => 10 * a + (pyDigitVal? c).getD 0) 0

/-- The regex match of `^\d+$` against a line containing no newline:
a full match is one or more digits. -/
def matchIntChars (l : List Char) : Bool :=
  !l.isEmpty && l.all pyIsDigit

/-- The regex match of `^\d+\.\d+$` against a line: digits, one dot, digits.
Since `\d` never matches a dot, a full match is exactly a split at a unique
dot with nonempty all-digit parts. -/
def matchFloatChars (l : List Char) : Bool :=
  match splitChar '.' l with
  | [a, b] => !a.isEmpty && a.all pyIsDigit && !b.isEmpty && b.all pyIsDigit
  | _ => false

/-- Model of the builtin int applied to a line, restricted to the
digit-string shapes reachable in this program
(the call site is guarded by the `^\d+$` match; signs, spaces and
underscores, which `int` also accepts, never reach it). `none` models a
raised `ValueError`. -/
def pyIntParse? (l : List Char) : Option Nat :=
  if matchIntChars l then some (digitsVal l) else none

/-- Exact decimal value of a `\d+\.\d+` literal. The IEEE-754 rounding of
Python `float` is abstracted: values are kept as exact rationals. -/
def floatVal (l : List Char) : Rat :=
  match splitChar '.' l with
  | [a, b] => (digitsVal a : Rat) + (digitsVal b : Rat) / (10 : Rat) ^ b.length
  | _ => 0

/-- Model of the builtin float applied to a line, restricted to the
`\d+\.\d+` shapes reachable in this program
(the call site is guarded by the `^\d+\.\d+$` match). `none` models
a raised `ValueError`. -/
def pyFloatParse? (l : List Char) : Option Rat :=
  if matchFloatChars l then some (floatVal l) else none

/-- A row of the extracted data: the per-row dict with a type tag and a
value, appended by `extract_data`, given as a tagged variant. -/
inductive Entry where
  | integer (value : Nat)
  | float (value : Rat)
  | string (value : String)
deriving DecidableEq

/-- Label stored in the type field of a row dict. -/
def Entry.typeLabel : Entry → String
  | .integer _ => "integer"
  | .float _ => "float"
  | .string _ => "string"

/-- The classification branch of `extract_data` on one stripped, nonempty
line: `^\d+$` → `int(line)`, else `^\d+\.\d+$` → `float(line)`, else the
line itself. An `error` is a raised `ValueError` from `int`/`float`. -/
def classifyEntry (l : List Char) : Except String Entry :=
  if matchIntChars l then
    match pyIntParse? l with
    | some n => .ok (.integer n)
    | none => .error "ValueError: invalid literal for int"
  else if matchFloatChars l then
    match pyFloatParse? l with
    | some q => .ok (.float q)
    | none => .error "ValueError: could not convert string to float"
  else .ok (.string (String.mk l))

/-- The `for line in lines` loop of `extract_data`: strip, skip empty,
classify, `data_list.append`. -/
def extract_lines : List (List Char) → List Entry → Except String (List Entry)
  | [], acc => .ok acc
  | line :: rest, acc =>
    let s := stripList line
    if s.isEmpty then extract_lines rest acc
    else
      match classifyEntry s with
      | .ok e => extract_lines rest (acc ++ [e])
      | .error msg => .error msg

/-- Body of extract_data: split the text on newlines, then run the loop
with an empty accumulator list. -/
def extract_data (text : String) : Except String (List Entry) :=
  extract_lines (splitChar '\n' text.data) []

/-- Per-line classification as a total function (the parses succeed under
their guards, see `classifyEntry_ok`); used to state the shape of
the output of `extract_data`. -/
def lineClass (l : List Char) : Entry :=
  if matchIntChars l then .integer (digitsVal l)
  else if matchFloatChars l then .float (floatVal l)
  else .string (String.mk l)

/-- Model of preprocess_data: builds a DataFrame from the list of row
dicts; rows and their order are preserved. -/
def preprocess_data (d : List Entry) : List Entry := d

/-- Boolean-mask filter used in main: keeps the rows of the DataFrame
whose type column equals `k`, in original order. -/
def by_kind (d : List Entry) (k : String) : List Entry :=
  d.filter fun e => e.typeLabel == k

/-- Model of pd.concat: concatenation of the datasets in the given
order. -/
def merge (ds : List (List Entry)) : List Entry := ds.flatten

/-- Outcome of the single `requests.get` call (plus the BeautifulSoup text
reduction) inside `scrape_webpage`:
* `response status text`: the request returned a final response with the
  given HTTP status; `text` is the visible text `get_text` extracts from its
  body on the non-raising path;
* `requestError`: `requests.get` raised a `RequestException` (timeout, DNS
  or connection failure);
* `parseAnomaly`: some other exception was raised while parsing the body. -/
inductive FetchEvent where
  | response (status : Nat) (text : String)
  | requestError (detail : String)
  | parseAnomaly (detail : String)
deriving DecidableEq

/-- Condition under which `response.raise_for_status` raises `HTTPError`
(a `RequestException`): exactly the 4xx and 5xx statuses. -/
def raise_for_status_raises (status : Nat) : Bool :=
  400 ≤ status && status < 600

/-- A 2xx (success) HTTP status. -/
def is2xx (status : Nat) : Bool :=
  200 ≤ status && status < 300

/-- Model of scrape_webpage: returns the extracted page text, or None
after reporting the error when `requests.get` or `raise_for_status` raises
a `RequestException`, or when any other exception is raised. -/
def scrape_webpage (ev : FetchEvent) : Option String :=
  match ev with
  | .response status text =>
    if raise_for_status_raises status then none else some text
  | .requestError _ => none
  | .parseAnomaly _ => none

/-- Observable outcome of one run of `main` after the button press:
whether `scrape_webpage` was invoked, whether an error message was shown,
and the dataset displayed in the tabs (`none` when no dataset is shown). -/
structure MainResult where
  calledScrape : Bool
  errorShown : Bool
  dataset : Option (List Entry)
deriving DecidableEq

/-- The body of `main` after the scrape button press, given
the URL in the text input and the outcome of the network call. `if not url`
and `if text_content` are Python truthiness tests: empty strings are falsy.
The `error` branch of `extract_data` would be an uncaught exception; it is
unreachable (`extract_data_total`). -/
def main (url : String) (ev : FetchEvent) : MainResult :=
  if url.isEmpty then ⟨false, true, none⟩
  else
    match scrape_webpage ev with
    | none => ⟨true, true, none⟩
    | some text =>
      if text.isEmpty then ⟨true, true, none⟩
      else
        match extract_data text with
        | .ok entries => ⟨true, false, some (preprocess_data entries)⟩
        | .error _ => ⟨true, true, none⟩

instance {ε α : Type} [DecidableEq ε] [DecidableEq α] : DecidableEq (Except ε α)
  | .error a, .error b =>
    if h : a = b then .isTrue (by rw [h]) else .isFalse (fun k => h (Except.error.inj k))
  | .error _, .ok _ => .isFalse (fun k => Except.noConfusion k)
  | .ok _, .error _ => .isFalse (fun k => Except.noConfusion k)
  | .ok a, .ok b =>
    if h : a = b then .isTrue (by rw [h]) else .isFalse (fun k => h (Except.ok.inj k))

/-- Character class `[0-9]` of the spec: the ASCII digits. -/
def asciiDigit (c : Char) : Bool := 48 ≤ c.toNat && c.toNat ≤ 57

/-- Pattern `^[0-9]+$` of the spec as a full match. -/
def asciiIntMatch (l : List Char) : Bool := !l.isEmpty && l.all asciiDigit

/-- Pattern `^[0-9]+\.[0-9]+$` of the spec as a full match. -/
def asciiFloatMatch (l : List Char) : Bool :=
  match splitChar '.' l with
  | [a, b] => !a.isEmpty && a.all asciiDigit && !b.isEmpty && b.all asciiDigit
  | _ => false

theorem asciiDigit_val {c : Char} (h : asciiDigit c = true) :
    pyDigitVal? c = some (c.toNat - 48) := by
  have h48 : (decide (48 ≤ c.toNat) && decide (c.toNat ≤ 57)) = true := h
  simp only [Bool.and_eq_true, decide_eq_true_eq] at h48
  have hcond : ((0x30 : Nat) ≤ c.toNat && c.toNat ≤ 0x30 + 9) = true := by
    simp only [Bool.and_eq_true, decide_eq_true_eq]
    exact ⟨h48.1, by omega⟩
  simp only [pyDigitVal?, pyDigitStarts, List.findSome?, hcond, if_true]

theorem asciiDigit_pyIsDigit {c : Char} (h : asciiDigit c = true) :
    pyIsDigit c = true := by
  simp [pyIsDigit, asciiDigit_val h]

theorem asciiIntMatch_matchIntChars {l : List Char} (h : asciiIntMatch l = true) :
    matchIntChars l = true := by
  simp only [asciiIntMatch, Bool.and_eq_true, List.all_eq_true] at h
  simp only [matchIntChars, Bool.and_eq_true, List.all_eq_true]
  exact ⟨h.1, fun c hc => asciiDigit_pyIsDigit (h.2 c hc)⟩

theorem asciiFloatMatch_matchFloatChars {l : List Char} (h : asciiFloatMatch l = true) :
    matchFloatChars l = true := by
  unfold asciiFloatMatch at h
  unfold matchFloatChars
  cases hs : splitChar '.' l with
  | nil => rw [hs] at h; exact absurd h (by simp)
  | cons a t =>
    cases t with
    | nil => rw [hs] at h; exact absurd h (by simp)
    | cons b t2 =>
      cases t2 with
      | nil =>
        rw [hs] at h
        simp only [Bool.and_eq_true, List.all_eq_true] at h
        simp only [Bool.and_eq_true, List.all_eq_true]
        exact ⟨⟨⟨h.1.1.1, fun c hc => asciiDigit_pyIsDigit (h.1.1.2 c hc)⟩, h.1.2⟩,
          fun c hc => asciiDigit_pyIsDigit (h.2 c hc)⟩
      | cons c t3 => rw [hs] at h; exact absurd h (by simp)

theorem classifyEntry_ok (l : List Char) : classifyEntry l = .ok (lineClass l) := by
  unfold classifyEntry lineClass pyIntParse? pyFloatParse?
  by_cases h1 : matchIntChars l = true
  · simp [h1]
  · by_cases h2 : matchFloatChars l = true <;> simp [h1, h2]

/-- The loop of `extract_data` appends, in order, the classification of each
line that is nonempty after stripping. -/
theorem extract_lines_eq (ls : List (List Char)) (acc : List Entry) :
    extract_lines ls acc =
      .ok (acc ++ ((ls.map stripList).filter (fun l => !l.isEmpty)).map lineClass) := by
  induction ls generalizing acc with
  | nil => simp [extract_lines]
  | cons l t ih =>
    show extract_lines (l :: t) acc = _
    unfold extract_lines
    cases h : (stripList l).isEmpty with
    | true => simp [h, ih]
    | false => simp [h, ih, classifyEntry_ok]

theorem splitCharAux_of_not_mem {sep : Char} {l : List Char} (h : sep ∉ l) (acc : List Char) :
    splitCharAux sep l acc = [acc.reverse ++ l] := by
  induction l generalizing acc with
  | nil => simp [splitCharAux]
  | cons c t ih =>
    have hc : ¬(c = sep) := fun k => h (k ▸ List.mem_cons_self c t)
    have ht : sep ∉ t := fun k => h (List.mem_cons_of_mem c k)
    simp [splitCharAux, hc, ih ht]

/-- A list without the separator splits into itself alone. -/
theorem splitChar_of_not_mem {sep : Char} {l : List Char} (h : sep ∉ l) :
    splitChar sep l = [l] := by
  simpa using splitCharAux_of_not_mem h []

/-- A full `^\d+\.\d+$` match rules out a full `^\d+$` match: the line
contains a dot and a dot is not a digit. -/
theorem matchFloatChars_not_int {l : List Char} (h : matchFloatChars l = true) :
    matchIntChars l = false := by
  have hdot : '.' ∈ l := by
    by_cases hd : '.' ∈ l
    · exact hd
    · unfold matchFloatChars at h
      rw [splitChar_of_not_mem hd] at h
      exact absurd h (by simp)
  cases hmi : matchIntChars l with
  | false => rfl
  | true =>
    simp only [matchIntChars, Bool.and_eq_true, List.all_eq_true] at hmi
    exact absurd (hmi.2 '.' hdot) (by decide)

/-- A `^\d+\.\d+$` match needs a nonempty line. -/
theorem matchFloatChars_ne_empty {l : List Char} (h : matchFloatChars l = true) :
    l.isEmpty = false := by
  cases he : l.isEmpty with
  | false => rfl
  | true =>
    have : l = [] := List.isEmpty_iff.mp he
    rw [this] at h
    exact absurd h (by decide)

theorem filter_strip_comm (ls : List (List Char)) :
    (((ls.filter fun l => !(stripList l).isEmpty).map stripList).filter fun l => !l.isEmpty) =
      ((ls.map stripList).filter fun l => !l.isEmpty) := by
  induction ls with
  | nil => rfl
  | cons l t ih => cases h : (stripList l).isEmpty <;> simp [h, ih]

/-- Claim C9: `extract_data` is total: the `int` and `float` parses cannot fail
under the regex guards of their branches, and for every input text the
classifier terminates with a result list and raises no exception. -/
theorem extract_data_total :
    (∀ l, matchIntChars l = true → pyIntParse? l ≠ none) ∧
    (∀ l, matchFloatChars l = true → pyFloatParse? l ≠ none) ∧
    (∀ text, ∃ entries, extract_data text = .ok entries) := by
  refine ⟨fun l h => by simp [pyIntParse?, h], fun l h => by simp [pyFloatParse?, h],
    fun text => ?_⟩
  unfold extract_data
  exact ⟨_, extract_lines_eq _ _⟩

theorem extract_data_total_witness :
    matchIntChars ['4', '2'] = true ∧ pyIntParse? ['4', '2'] ≠ none ∧
    matchFloatChars ['3', '.', '1'] = true ∧ pyFloatParse? ['3', '.', '1'] ≠ none ∧
    ∃ entries, extract_data "hi\n42" = .ok entries :=
  ⟨by decide, extract_data_total.1 ['4', '2'] (by decide),
   by decide, extract_data_total.2.1 ['3', '.', '1'] (by decide),
   extract_data_total.2.2 "hi\n42"⟩

/-- Claim C10: the output of the classifier is, in order, the classification of each
line of the input that is nonempty after stripping, one entry per surviving
line; in particular its length is the number of nonempty stripped lines. -/
theorem extract_data_linewise (text : String) :
    extract_data text =
      .ok ((((splitChar '\n' text.data).map stripList).filter fun l => !l.isEmpty).map
        lineClass) ∧
    ((((splitChar '\n' text.data).map stripList).filter fun l => !l.isEmpty).map
        lineClass).length =
      ((splitChar '\n' text.data).filter fun l => !(stripList l).isEmpty).length := by
  constructor
  · unfold extract_data
    rw [extract_lines_eq]
    rfl
  · rw [List.length_map]
    induction splitChar '\n' text.data with
    | nil => rfl
    | cons l t ih => cases h : (stripList l).isEmpty <;> simp [h, ih]

/-- Claim C1: a line whose stripped form fully matches `^[0-9]+$` is classified
as an integer whose value is the parsed decimal value of the stripped
digits. -/
theorem extract_data_integer (line : String) (hnl : '\n' ∉ line.data)
    (h : asciiIntMatch (stripList line.data) = true) :
    extract_data line = .ok [.integer (digitsVal (stripList line.data))] := by
  unfold extract_data
  rw [splitChar_of_not_mem hnl, extract_lines_eq]
  have hm := asciiIntMatch_matchIntChars h
  have hne : (stripList line.data).isEmpty = false := by
    simp only [asciiIntMatch, Bool.and_eq_true] at h
    cases hi : (stripList line.data).isEmpty with
    | false => rfl
    | true => rw [hi] at h; exact absurd h.1 (by simp)
  simp [hne, lineClass, hm]

theorem extract_data_integer_witness :
    ('\n' ∉ " 42 ".data) ∧ asciiIntMatch (stripList " 42 ".data) = true ∧
    extract_data " 42 " = .ok [.integer 42] := by
  refine ⟨by decide, by decide, ?_⟩
  have h := extract_data_integer " 42 " (by decide) (by decide)
  have h2 : digitsVal (stripList " 42 ".data) = 42 := by decide
  rw [h2] at h
  exact h

/-- Claim C2: a line whose stripped form fully matches `^[0-9]+\.[0-9]+$` (and
hence not the integer pattern) is classified as a float whose value is the
parsed decimal literal (exact decimal value; IEEE-754 rounding of Python
`float` is abstracted to exact rationals). -/
theorem extract_data_float (line : String) (hnl : '\n' ∉ line.data)
    (_hnotint : asciiIntMatch (stripList line.data) = false)
    (h : asciiFloatMatch (stripList line.data) = true) :
    extract_data line = .ok [.float (floatVal (stripList line.data))] := by
  unfold extract_data
  rw [splitChar_of_not_mem hnl, extract_lines_eq]
  have hm := asciiFloatMatch_matchFloatChars h
  have hni := matchFloatChars_not_int hm
  have hne := matchFloatChars_ne_empty hm
  simp [hne, lineClass, hni, hm]

theorem extract_data_float_witness :
    ('\n' ∉ "3.14".data) ∧ asciiIntMatch (stripList "3.14".data) = false ∧
    asciiFloatMatch (stripList "3.14".data) = true ∧
    extract_data "3.14" = .ok [.float (157 / 50)] := by
  refine ⟨by decide, by decide, by decide, ?_⟩
  have h := extract_data_float "3.14" (by decide) (by decide) (by decide)
  have h3 : stripList "3.14".data = ['3', '.', '1', '4'] := by decide
  rw [h3] at h
  have h2 : floatVal ['3', '.', '1', '4'] = 157 / 50 := by
    show (digitsVal ['3'] : Rat) + (digitsVal ['1', '4'] : Rat) /
      (10 : Rat) ^ (['1', '4'] : List Char).length = 157 / 50
    have h5 : digitsVal ['3'] = 3 := by decide
    have h6 : digitsVal ['1', '4'] = 14 := by decide
    rw [h5, h6]
    norm_num
  rw [h2] at h
  exact h

/-- Claim C3 (amended): a line that is nonempty after stripping and fully
matches neither `^\d+$` nor `^\d+\.\d+$` under the Unicode-aware Python
`\d` is
classified as a string, with the stripped line verbatim as value; negative
numbers, scientific notation and thousands separators all fall here. -/
theorem extract_data_string (line : String) (hnl : '\n' ∉ line.data)
    (hne : (stripList line.data).isEmpty = false)
    (hint : matchIntChars (stripList line.data) = false)
    (hfloat : matchFloatChars (stripList line.data) = false) :
    extract_data line = .ok [.string (String.mk (stripList line.data))] := by
  unfold extract_data
  rw [splitChar_of_not_mem hnl, extract_lines_eq]
  simp [hne, lineClass, hint, hfloat]

theorem extract_data_string_witness :
    ('\n' ∉ "-5".data) ∧ (stripList "-5".data).isEmpty = false ∧
    matchIntChars (stripList "-5".data) = false ∧
    matchFloatChars (stripList "-5".data) = false ∧
    extract_data "-5" = .ok [.string "-5"] := by
  refine ⟨by decide, by decide, by decide, by decide, ?_⟩
  have h := extract_data_string "-5" (by decide) (by decide) (by decide) (by decide)
  have h2 : String.mk (stripList "-5".data) = "-5" := by decide
  rw [h2] at h
  exact h

/-- Claim C3 fails as stated: the line `"٥"` (Arabic-Indic five, U+0665) matches
neither of the ASCII patterns `^[0-9]+$` and `^[0-9]+\.[0-9]+$` of the
spec, yet the Unicode-aware Python `\d` matches it and `extract_data` classifies it as `integer 5`,
not as the string `"٥"`. -/
theorem extract_data_string_counterexample :
    asciiIntMatch (stripList "٥".data) = false ∧
    asciiFloatMatch (stripList "٥".data) = false ∧
    (stripList "٥".data).isEmpty = false ∧
    extract_data "٥" = .ok [.integer 5] ∧
    ¬(extract_data "٥" = .ok [.string "٥"]) := by
  refine ⟨by decide, by decide, by decide, by decide, by decide⟩

/-- Claim C4: lines that are empty after stripping produce no entry: filtering
them out of the line list does not change the result of the extraction
loop, and the example `"a\n\n  \nb"` yields exactly the two entries for
`"a"` and `"b"`. -/
theorem extract_blank_lines_dropped :
    (∀ ls acc, extract_lines (ls.filter fun l => !(stripList l).isEmpty) acc =
      extract_lines ls acc) ∧
    extract_data "a\n\n  \nb" = .ok [.string "a", .string "b"] := by
  refine ⟨fun ls acc => ?_, by decide⟩
  rw [extract_lines_eq, extract_lines_eq, filter_strip_comm]

/-- Claim C5: filtering the dataset by each of the three kinds and concatenating
the filtered parts (`pd.concat([int_df, float_df, string_df])`) is a
permutation of the original dataset: the same multiset of rows, each kind
group keeping its original relative order by construction of `filter`. -/
theorem by_kind_merge_perm (d : List Entry) :
    (merge [by_kind d "integer", by_kind d "float", by_kind d "string"]).Perm d := by
  have hm : merge [by_kind d "integer", by_kind d "float", by_kind d "string"] =
      by_kind d "integer" ++ (by_kind d "float" ++ by_kind d "string") := by
    simp [merge]
  rw [hm]
  clear hm
  induction d with
  | nil => simp [by_kind]
  | cons e t ih =>
    cases e with
    | integer v =>
      have h1 : by_kind (Entry.integer v :: t) "integer" =
          Entry.integer v :: by_kind t "integer" := by simp [by_kind, Entry.typeLabel]
      have h2 : by_kind (Entry.integer v :: t) "float" = by_kind t "float" := by
        simp [by_kind, Entry.typeLabel]
      have h3 : by_kind (Entry.integer v :: t) "string" = by_kind t "string" := by
        simp [by_kind, Entry.typeLabel]
      rw [h1, h2, h3]
      exact ih.cons _
    | float v =>
      have h1 : by_kind (Entry.float v :: t) "integer" = by_kind t "integer" := by
        simp [by_kind, Entry.typeLabel]
      have h2 : by_kind (Entry.float v :: t) "float" =
          Entry.float v :: by_kind t "float" := by simp [by_kind, Entry.typeLabel]
      have h3 : by_kind (Entry.float v :: t) "string" = by_kind t "string" := by
        simp [by_kind, Entry.typeLabel]
      rw [h1, h2, h3]
      exact List.perm_middle.trans (ih.cons _)
    | string v =>
      have h1 : by_kind (Entry.string v :: t) "integer" = by_kind t "integer" := by
        simp [by_kind, Entry.typeLabel]
      have h2 : by_kind (Entry.string v :: t) "float" = by_kind t "float" := by
        simp [by_kind, Entry.typeLabel]
      have h3 : by_kind (Entry.string v :: t) "string" =
          Entry.string v :: by_kind t "string" := by simp [by_kind, Entry.typeLabel]
      rw [h1, h2, h3]
      exact ((List.perm_middle.append_left (by_kind t "integer")).trans
        List.perm_middle).trans (ih.cons _)

/-- Claim C7 fails as stated: a final 300 response is non-2xx, yet
`raise_for_status` raises only for 4xx/5xx, so `scrape_webpage` returns the
page text and `main` displays a dataset built from it. -/
theorem scrape_non2xx_counterexample :
    is2xx 300 = false ∧
    scrape_webpage (.response 300 "5") = some "5" ∧
    (main "http://example.com" (.response 300 "5")).dataset = some [.integer 5] :=
  ⟨by decide, by decide, by decide⟩

/-- Claim C7 (amended): for every fetch that times out or fails at the network
level, raises any other exception, or receives a 4xx or 5xx final status
(the statuses `raise_for_status` raises on), `scrape_webpage` returns
`None`, and `main` shows an error and displays no dataset for that
invocation; a non-2xx final status outside 400–599 (an unfollowed 3xx) is
treated as success. -/
theorem scrape_error_no_dataset (ev : FetchEvent)
    (h : match ev with
      | .response status _ => raise_for_status_raises status = true
      | .requestError _ => True
      | .parseAnomaly _ => True) :
    scrape_webpage ev = none ∧
    ∀ url, (main url ev).dataset = none ∧ (main url ev).errorShown = true := by
  have hs : scrape_webpage ev = none := by
    cases ev with
    | response status text => simp only [scrape_webpage, h, if_true]
    | requestError d => rfl
    | parseAnomaly d => rfl
  refine ⟨hs, fun url => ?_⟩
  by_cases hu : url.isEmpty = true
  · simp [main, hu]
  · simp [main, hu, hs]

theorem scrape_error_no_dataset_witness :
    raise_for_status_raises 404 = true ∧
    scrape_webpage (.response 404 "x") = none ∧
    (main "http://example.org" (.response 404 "x")).dataset = none ∧
    (main "http://example.org" (.response 404 "x")).errorShown = true := by
  have h := scrape_error_no_dataset (.response 404 "x") (by decide)
  exact ⟨by decide, h.1, (h.2 "http://example.org").1, (h.2 "http://example.org").2⟩

/-- Claim C8: with an empty URL input, `main` reports an error and returns before
any network call: `scrape_webpage` is not invoked, whatever the network
would have answered, and no dataset is shown. -/
theorem main_empty_url (ev : FetchEvent) :
    (main "" ev).calledScrape = false ∧ (main "" ev).errorShown = true ∧
    (main "" ev).dataset = none :=
  ⟨rfl, rfl, rfl⟩

/-- Modelled from the spec: the CSV export (`scraped_data.csv`, header
`type,value`) is described in the spec but absent from `src/Scrape.py`;
`csvNeedsQuote` decides whether a field needs standard CSV quoting: it
contains a comma, a double quote, or a line break. -/
def csvNeedsQuote (l : List Char) : Bool :=
  l.any fun c => c = ',' || c = '\"' || c = '\n' || c = '\r'

/-- Modelled from the spec: standard CSV escaping inside a quoted field,
doubling each double quote. -/
def csvEscape : List Char → List Char
  | [] => []
  | c :: cs => if c = '\"' then '\"' :: '\"' :: csvEscape cs else c :: csvEscape cs

/-- Modelled from the spec: a CSV field, quoted exactly when needed. -/
def csvField (l : List Char) : List Char :=
  if csvNeedsQuote l then '\"' :: (csvEscape l ++ ['\"']) else l

/-- Modelled from the spec: one CSV record `type,value`. -/
def csvRecord (t v : List Char) : List Char :=
  csvField t ++ ',' :: csvField v

/-- Newline-joined lines, no trailing newline. -/
def joinLines : List (List Char) → List Char
  | [] => []
  | [x] => x
  | x :: xs => x ++ '\n' :: joinLines xs

/-- Modelled from the spec: the CSV document offered for download as
`scraped_data.csv`: the header record `type,value` followed by one record
per row. -/
def csvRender (rows : List (String × String)) : String :=
  String.mk (joinLines ((("type", "value") :: rows).map fun r =>
    csvRecord r.1.data r.2.data))

/-- Parser mode: outside quotes, inside quotes, or just after a quote seen
inside a quoted field (deciding between an escaped quote and the closing
quote). -/
inductive CsvMode where
  | plain
  | quoted
  | quoteSeen

/-- Modelled from the spec: a standard CSV reader as a one-pass state
machine over the characters. `facc` is the current field (reversed), `racc`
the fields of the current record (reversed), `done` the finished records
(reversed); `none` is a malformed document (an unterminated quoted
field). -/
def csvRun : CsvMode → List Char → List Char → List (List Char) →
    List (List (List Char)) → Option (List (List (List Char)))
  | .plain, [], facc, racc, done => some (((facc.reverse :: racc).reverse :: done).reverse)
  | .plain, c :: rest, facc, racc, done =>
    if c = ',' then csvRun .plain rest [] (facc.reverse :: racc) done
    else if c = '\n' then csvRun .plain rest [] [] ((facc.reverse :: racc).reverse :: done)
    else if c = '\"' then
      if facc.isEmpty then csvRun .quoted rest facc racc done
      else csvRun .plain rest (c :: facc) racc done
    else csvRun .plain rest (c :: facc) racc done
  | .quoted, [], _, _, _ => none
  | .quoted, c :: rest, facc, racc, done =>
    if c = '\"' then csvRun .quoteSeen rest facc racc done
    else csvRun .quoted rest (c :: facc) racc done
  | .quoteSeen, [], facc, racc, done => some (((facc.reverse :: racc).reverse :: done).reverse)
  | .quoteSeen, c :: rest, facc, racc, done =>
    if c = '\"' then csvRun .quoted rest (c :: facc) racc done
    else if c = ',' then csvRun .plain rest [] (facc.reverse :: racc) done
    else if c = '\n' then csvRun .plain rest [] [] ((facc.reverse :: racc).reverse :: done)
    else csvRun .plain rest (c :: facc) racc done

/-- Modelled from the spec: parse a CSV document into its records of
fields. -/
def csvParse (s : String) : Option (List (List String)) :=
  (csvRun .plain s.data [] [] []).map (List.map (List.map String.mk))

/-- Read two-column records as `(type, value)` pairs; `none` when a record
does not have exactly two fields. -/
def recordsToPairs : List (List String) → Option (List (String × String))
  | [] => some []
  | [a, b] :: rest => (recordsToPairs rest).map fun t => (a, b) :: t
  | _ => none

/-- Modelled from the spec: parse a CSV document whose records all have the
two columns `type` and `value` into the sequence of `(type, value)`
pairs. -/
def csvParsePairs (s : String) : Option (List (String × String)) :=
  match csvParse s with
  | none => none
  | some records => recordsToPairs records

/-- The `value` cell of a row: a rendering of the typed value that
round-trips to the same displayed representation. -/
def Entry.valueStr : Entry → String
  | .integer n => toString n
  | .float q => toString q
  | .string s => s

/-- The `(type, value)` cell pair of one row. -/
def entryPair (e : Entry) : String × String :=
  (e.typeLabel, e.valueStr)

/-- Modelled from the spec: the CSV serialization of a dataset. -/
def csvRenderDataset (d : List Entry) : String :=
  csvRender (d.map entryPair)

/-- The next character, if any, ends the current field: a separator, a
record break, or the end of the document. -/
def sepStart (l : List Char) : Prop :=
  l = [] ∨ (∃ t, l = ',' :: t) ∨ (∃ t, l = '\n' :: t)

theorem csvRun_plain_append {s : List Char} (h : csvNeedsQuote s = false)
    (rest facc : List Char) (racc : List (List Char)) (done : List (List (List Char))) :
    csvRun .plain (s ++ rest) facc racc done =
      csvRun .plain rest (s.reverse ++ facc) racc done := by
  induction s generalizing facc with
  | nil => rfl
  | cons c cs ih =>
    simp only [csvNeedsQuote, List.any_cons, Bool.or_eq_false_iff,
      decide_eq_false_iff_not] at h
    obtain ⟨⟨⟨⟨hc1, hc2⟩, hc3⟩, hc4⟩, hcs⟩ := h
    show csvRun .plain (c :: (cs ++ rest)) facc racc done = _
    simp only [csvRun, if_neg hc1, if_neg hc3, if_neg hc2]
    rw [ih hcs (c :: facc)]
    simp [List.append_assoc]

theorem csvRun_quoted_escape (s : List Char) (rest facc : List Char)
    (racc : List (List Char)) (done : List (List (List Char))) :
    csvRun .quoted (csvEscape s ++ '\"' :: rest) facc racc done =
      csvRun .quoteSeen rest (s.reverse ++ facc) racc done := by
  induction s generalizing facc with
  | nil =>
    show csvRun .quoted ('\"' :: rest) facc racc done = _
    simp [csvRun]
  | cons c cs ih =>
    by_cases hc : c = '\"'
    · subst hc
      show csvRun .quoted ('\"' :: '\"' :: (csvEscape cs ++ '\"' :: rest)) facc racc done = _
      simp only [csvRun, if_pos rfl]
      rw [ih ('\"' :: facc)]
      simp [List.append_assoc]
    · have he : csvEscape (c :: cs) = c :: csvEscape cs := by simp [csvEscape, hc]
      rw [he]
      show csvRun .quoted (c :: (csvEscape cs ++ '\"' :: rest)) facc racc done = _
      simp only [csvRun, if_neg hc]
      rw [ih (c :: facc)]
      simp [List.append_assoc]

theorem csvRun_quoteSeen_sep {rest : List Char} (h : sepStart rest)
    (facc : List Char) (racc : List (List Char)) (done : List (List (List Char))) :
    csvRun .quoteSeen rest facc racc done = csvRun .plain rest facc racc done := by
  rcases h with rfl | ⟨t, rfl⟩ | ⟨t, rfl⟩
  · rfl
  · simp [csvRun]
  · simp [csvRun]

theorem csvRun_field (f : List Char) {rest : List Char} (h : sepStart rest)
    (racc : List (List Char)) (done : List (List (List Char))) :
    csvRun .plain (csvField f ++ rest) [] racc done =
      csvRun .plain rest f.reverse racc done := by
  unfold csvField
  cases hq : csvNeedsQuote f with
  | false =>
    rw [if_neg (by simp [hq])]
    rw [csvRun_plain_append hq]
    simp
  | true =>
    rw [if_pos (by simp [hq])]
    show csvRun .plain ('\"' :: ((csvEscape f ++ ['\"']) ++ rest)) [] racc done = _
    simp only [csvRun, if_neg (by decide : ¬('\"' = ',')),
      if_neg (by decide : ¬('\"' = '\n')), if_pos rfl, List.isEmpty_nil, if_pos rfl]
    have harr : (csvEscape f ++ ['\"']) ++ rest = csvEscape f ++ '\"' :: rest := by
      simp [List.append_assoc]
    rw [harr, csvRun_quoted_escape, csvRun_quoteSeen_sep h]
    simp

theorem csvRun_record (t v : List Char) {rest : List Char} (h : sepStart rest)
    (racc : List (List Char)) (done : List (List (List Char))) :
    csvRun .plain (csvRecord t v ++ rest) [] racc done =
      csvRun .plain rest v.reverse (t :: racc) done := by
  unfold csvRecord
  have harr : (csvField t ++ ',' :: csvField v) ++ rest =
      csvField t ++ ',' :: (csvField v ++ rest) := by simp [List.append_assoc]
  rw [harr, csvRun_field t (Or.inr (Or.inl ⟨csvField v ++ rest, rfl⟩))]
  show csvRun .plain (',' :: (csvField v ++ rest)) t.reverse racc done = _
  simp only [csvRun, if_pos rfl]
  rw [csvRun_field v h]
  simp

theorem csvRun_doc (rows : List (String × String)) (hne : rows ≠ [])
    (done : List (List (List Char))) :
    csvRun .plain (joinLines (rows.map fun r => csvRecord r.1.data r.2.data)) [] [] done =
      some (done.reverse ++ rows.map fun r => [r.1.data, r.2.data]) := by
  induction rows generalizing done with
  | nil => exact absurd rfl hne
  | cons r rows' ih =>
    cases rows' with
    | nil =>
      show csvRun .plain (joinLines [csvRecord r.1.data r.2.data]) [] [] done = _
      have hj : joinLines [csvRecord r.1.data r.2.data] = csvRecord r.1.data r.2.data := rfl
      rw [hj]
      have hr : csvRecord r.1.data r.2.data = csvRecord r.1.data r.2.data ++ [] := by simp
      rw [hr, csvRun_record _ _ (Or.inl rfl)]
      show some _ = _
      simp [csvRun]
    | cons r2 rest2 =>
      show csvRun .plain
        (joinLines (csvRecord r.1.data r.2.data ::
          (r2 :: rest2).map fun x => csvRecord x.1.data x.2.data)) [] [] done = _
      have hj : joinLines (csvRecord r.1.data r.2.data ::
          (r2 :: rest2).map (fun x => csvRecord x.1.data x.2.data)) =
          csvRecord r.1.data r.2.data ++
            '\n' :: joinLines ((r2 :: rest2).map fun x => csvRecord x.1.data x.2.data) := by
        simp [joinLines]
      rw [hj, csvRun_record _ _ (Or.inr (Or.inr ⟨_, rfl⟩))]
      show csvRun .plain
        ('\n' :: joinLines ((r2 :: rest2).map fun x => csvRecord x.1.data x.2.data))
        r.2.data.reverse [r.1.data] done = _
      simp only [csvRun, if_neg (by decide : ¬('\n' = ',')), if_pos rfl]
      rw [ih (by simp)]
      simp

theorem recordsToPairs_map (pairs : List (String × String)) :
    recordsToPairs (pairs.map fun r => [r.1, r.2]) = some pairs := by
  induction pairs with
  | nil => rfl
  | cons p t ih => simp [recordsToPairs, ih]

/-- Claim C6 (modelled from the spec: no CSV export exists in `src/Scrape.py`):
serializing a dataset as CSV — header record `type,value`, one record per
row, standard quoting — and parsing the document back recovers every
`(type, value)` pair exactly, whatever characters the values contain
(commas, quotes, newlines included). -/
theorem csv_roundtrip (d : List Entry) :
    csvParsePairs (csvRenderDataset d) = some (("type", "value") :: d.map entryPair) := by
  unfold csvParsePairs csvParse csvRenderDataset csvRender
  rw [show (String.mk (joinLines (((("type", "value") :: d.map entryPair)).map fun r =>
      csvRecord r.1.data r.2.data))).data =
    joinLines (((("type", "value") :: d.map entryPair)).map fun r =>
      csvRecord r.1.data r.2.data) from rfl]
  rw [csvRun_doc _ (by simp)]
  have hmm : (((("type", "value") :: d.map entryPair)).map fun r =>
      [r.1.data, r.2.data]).map (List.map String.mk) =
      ((("type", "value") :: d.map entryPair)).map fun r => [r.1, r.2] := by
    rw [List.map_map]
    apply List.map_congr_left
    intro r _
    rfl
  simp only [List.reverse_nil, List.nil_append, Option.map_some', hmm]
  exact recordsToPairs_map _

end Scrape
